import Mathlib

/-
  Verification of `htoz_tablegen.py`, a one-shot code-generation script that
  builds a static lookup table mapping single-byte half-width (hankaku)
  SHIFT_JIS katakana codes to their two-byte full-width (zenkaku) SHIFT_JIS
  encodings, and prints the table as a C array initializer.

  The embedding models the script with Python 2 semantics: a raised
  exception is modelled as `none`, byte strings are `List Nat`, and the
  module-level mutable list `MAPPING` is threaded explicitly.
-/

namespace Htoz

/-- The fixed full-width (zenkaku) character sequence from line 6 of
    `htoz_tablegen.py`; its first character is the ideographic space
    U+3000, written here as an escape. -/
def ZENKAKU : List Char :=
  "　！？…。「」、をぁぃぅぇぉゃゅょっーあいうえおかきくけこさしすせそたちつてとなにぬねのはひふへほまみむめもやゆよらりるれろわん".toList

/-- The fixed half-width (hankaku) character sequence from line 7 of
    `htoz_tablegen.py`; its first character is U+00A0 (the source writes
    it as the escape for code point 0xa0). -/
def HANKAKU : List Char :=
  "\u00A0!?･｡｢｣､ｦｧｨｩｪｫｬｭｮｯｰｱｲｳｴｵｶｷｸｹｺｻｼｽｾｿﾀﾁﾂﾃﾄﾅﾆﾇﾈﾉﾊﾋﾌﾍﾎﾏﾐﾑﾒﾓﾔﾕﾖﾗﾘﾙﾚﾛﾜﾝ".toList

/-- Code-point-to-bytes table of the SHIFT_JIS codec, modelling the encoder
    Python supplies through `.encode('shift-jis')`.  The codec is external to
    the repository, so it is embedded as a finite table restricted to the
    characters this program encodes.  A code point absent from the table has
    no SHIFT_JIS encoding in this model; in particular U+00A0 (no-break
    space), the one character the program deliberately never strictly
    encodes, has no SHIFT_JIS representation in the real codec either. -/
def sjisTable : List (Nat × List Nat) := [
  (0x0021, [0x21]),
  (0x003f, [0x3f]),
  (0x2026, [0x81, 0x63]),
  (0x3000, [0x81, 0x40]),
  (0x3001, [0x81, 0x41]),
  (0x3002, [0x81, 0x42]),
  (0x300c, [0x81, 0x75]),
  (0x300d, [0x81, 0x76]),
  (0x3041, [0x82, 0x9f]),
  (0x3042, [0x82, 0xa0]),
  (0x3043, [0x82, 0xa1]),
  (0x3044, [0x82, 0xa2]),
  (0x3045, [0x82, 0xa3]),
  (0x3046, [0x82, 0xa4]),
  (0x3047, [0x82, 0xa5]),
  (0x3048, [0x82, 0xa6]),
  (0x3049, [0x82, 0xa7]),
  (0x304a, [0x82, 0xa8]),
  (0x304b, [0x82, 0xa9]),
  (0x304d, [0x82, 0xab]),
  (0x304f, [0x82, 0xad]),
  (0x3051, [0x82, 0xaf]),
  (0x3053, [0x82, 0xb1]),
  (0x3055, [0x82, 0xb3]),
  (0x3057, [0x82, 0xb5]),
  (0x3059, [0x82, 0xb7]),
  (0x305b, [0x82, 0xb9]),
  (0x305d, [0x82, 0xbb]),
  (0x305f, [0x82, 0xbd]),
  (0x3061, [0x82, 0xbf]),
  (0x3063, [0x82, 0xc1]),
  (0x3064, [0x82, 0xc2]),
  (0x3066, [0x82, 0xc4]),
  (0x3068, [0x82, 0xc6]),
  (0x306a, [0x82, 0xc8]),
  (0x306b, [0x82, 0xc9]),
  (0x306c, [0x82, 0xca]),
  (0x306d, [0x82, 0xcb]),
  (0x306e, [0x82, 0xcc]),
  (0x306f, [0x82, 0xcd]),
  (0x3072, [0x82, 0xd0]),
  (0x3075, [0x82, 0xd3]),
  (0x3078, [0x82, 0xd6]),
  (0x307b, [0x82, 0xd9]),
  (0x307e, [0x82, 0xdc]),
  (0x307f, [0x82, 0xdd]),
  (0x3080, [0x82, 0xde]),
  (0x3081, [0x82, 0xdf]),
  (0x3082, [0x82, 0xe0]),
  (0x3083, [0x82, 0xe1]),
  (0x3084, [0x82, 0xe2]),
  (0x3085, [0x82, 0xe3]),
  (0x3086, [0x82, 0xe4]),
  (0x3087, [0x82, 0xe5]),
  (0x3088, [0x82, 0xe6]),
  (0x3089, [0x82, 0xe7]),
  (0x308a, [0x82, 0xe8]),
  (0x308b, [0x82, 0xe9]),
  (0x308c, [0x82, 0xea]),
  (0x308d, [0x82, 0xeb]),
  (0x308f, [0x82, 0xed]),
  (0x3092, [0x82, 0xf0]),
  (0x3093, [0x82, 0xf1]),
  (0x30fc, [0x81, 0x5b]),
  (0xff01, [0x81, 0x49]),
  (0xff1f, [0x81, 0x48]),
  (0xff61, [0xa1]),
  (0xff62, [0xa2]),
  (0xff63, [0xa3]),
  (0xff64, [0xa4]),
  (0xff65, [0xa5]),
  (0xff66, [0xa6]),
  (0xff67, [0xa7]),
  (0xff68, [0xa8]),
  (0xff69, [0xa9]),
  (0xff6a, [0xaa]),
  (0xff6b, [0xab]),
  (0xff6c, [0xac]),
  (0xff6d, [0xad]),
  (0xff6e, [0xae]),
  (0xff6f, [0xaf]),
  (0xff70, [0xb0]),
  (0xff71, [0xb1]),
  (0xff72, [0xb2]),
  (0xff73, [0xb3]),
  (0xff74, [0xb4]),
  (0xff75, [0xb5]),
  (0xff76, [0xb6]),
  (0xff77, [0xb7]),
  (0xff78, [0xb8]),
  (0xff79, [0xb9]),
  (0xff7a, [0xba]),
  (0xff7b, [0xbb]),
  (0xff7c, [0xbc]),
  (0xff7d, [0xbd]),
  (0xff7e, [0xbe]),
  (0xff7f, [0xbf]),
  (0xff80, [0xc0]),
  (0xff81, [0xc1]),
  (0xff82, [0xc2]),
  (0xff83, [0xc3]),
  (0xff84, [0xc4]),
  (0xff85, [0xc5]),
  (0xff86, [0xc6]),
  (0xff87, [0xc7]),
  (0xff88, [0xc8]),
  (0xff89, [0xc9]),
  (0xff8a, [0xca]),
  (0xff8b, [0xcb]),
  (0xff8c, [0xcc]),
  (0xff8d, [0xcd]),
  (0xff8e, [0xce]),
  (0xff8f, [0xcf]),
  (0xff90, [0xd0]),
  (0xff91, [0xd1]),
  (0xff92, [0xd2]),
  (0xff93, [0xd3]),
  (0xff94, [0xd4]),
  (0xff95, [0xd5]),
  (0xff96, [0xd6]),
  (0xff97, [0xd7]),
  (0xff98, [0xd8]),
  (0xff99, [0xd9]),
  (0xff9a, [0xda]),
  (0xff9b, [0xdb]),
  (0xff9c, [0xdc]),
  (0xff9d, [0xdd])]

/-- Strict SHIFT_JIS encoding of one character, as `hk.encode('shift-jis')`
    performs it: `some bytes` on success, `none` when the codec raises
    `UnicodeEncodeError`. -/
def sjisEncode (c : Char) : Option (List Nat) :=
  sjisTable.lookup c.toNat

/-- Lowercase hexadecimal digits of `n`, most significant first. -/
def hexChars (n : Nat) : List Char := Nat.toDigits 16 n

/-- Zero-pad the hexadecimal digits of `n` on the left to width `w`, the
    shared behaviour of the `%02x` format and of the escape widths of the
    `backslashreplace` handler. -/
def padHex (w n : Nat) : List Char :=
  List.replicate (w - (hexChars n).length) '0' ++ hexChars n

/-- Model of the `backslashreplace` error handler of Python 2: an
    unencodable character is replaced by the ASCII bytes of its escape,
    `\xhh` for code points up to 0xff, `\uhhhh` up to 0xffff and
    `\Uhhhhhhhh` beyond, with zero-padded lowercase hex digits. -/
def backslashEscape (c : Char) : List Nat :=
  if c.toNat ≤ 0xff then ('\\' :: 'x' :: padHex 2 c.toNat).map Char.toNat
  else if c.toNat ≤ 0xffff then ('\\' :: 'u' :: padHex 4 c.toNat).map Char.toNat
  else ('\\' :: 'U' :: padHex 8 c.toNat).map Char.toNat

/-- Total encoding with fallback, as `zk.encode('shift-jis',
    'backslashreplace')` performs it: the strict SHIFT_JIS bytes when the
    character is encodable, the backslash-escape bytes otherwise.  It never
    fails. -/
def encodeSjisBackslash (c : Char) : List Nat :=
  match sjisEncode c with
  | some bs => bs
  | none => backslashEscape c

/-- One stored mapping: `(byte_index, zenkaku byte 0, zenkaku byte 1)`,
    the triple the script appends to `MAPPING`. -/
abbrev Entry := Nat × Nat × Nat

/-- Body of the loop of `gen_mapping` for loop index `i`, half-width
    character `hk` and full-width character `zk` (lines 15 to 24 of the
    source): encode `zk` with the fallback handler, take the fixed byte
    `0xa0` at position zero and the strict single-byte encoding of `hk`
    otherwise, and read the first two target bytes.  `none` models an
    exception: `UnicodeEncodeError` when `hk` has no strict encoding, a
    `TypeError` of `ord` when the strict encoding is not exactly one byte,
    or an `IndexError` when the target bytes are shorter than two. -/
def genEntry (i : Nat) (hk zk : Char) : Option Entry :=
  let zkBytes := encodeSjisBackslash zk
  let hkBytes : Option (List Nat) := if i = 0 then some [0xa0] else sjisEncode hk
  match hkBytes, zkBytes[0]?, zkBytes[1]? with
  | some [b], some b0, some b1 => some (b, b0, b1)
  | _, _, _ => none

/-- The loop of `gen_mapping`: iterate over the half-width characters with
    their indices, look the full-width partner up by index (`ZENKAKU[i]`,
    an `IndexError`, hence `none`, when the index is out of range), and
    collect the generated entries in order. -/
def genLoop (z : List Char) : Nat → List Char → Option (List Entry)
  | _, [] => some []
  | i, hk :: rest =>
    match z[i]? with
    | none => none
    | some zk =>
      match genEntry i hk zk with
      | none => none
      | some e =>
        match genLoop z (i + 1) rest with
        | none => none
        | some es => some (e :: es)

/-- `gen_mapping`, parameterized over the two source sequences and over the
    current contents of the module-level list `MAPPING` it appends to:
    `some` of the new contents of `MAPPING` when the call returns, `none`
    when it raises. -/
def gen_mapping_on (hankaku zenkaku : List Char) (mapping : List Entry) :
    Option (List Entry) :=
  (genLoop zenkaku 0 hankaku).map (fun es => mapping ++ es)

/-- `gen_mapping` as the script defines it, on the fixed `HANKAKU` and
    `ZENKAKU` tables, still explicit in the `MAPPING` state it mutates. -/
def gen_mapping (mapping : List Entry) : Option (List Entry) :=
  gen_mapping_on HANKAKU ZENKAKU mapping

/-- The entries the single `gen_mapping()` call of the entry point leaves
    in `MAPPING`, starting from the empty list of line 10. -/
def mainEntries : List Entry :=
  (genLoop ZENKAKU 0 HANKAKU).getD []

/-- The `%02x` conversion of Python: lowercase hexadecimal, zero-padded on
    the left to a minimum width of two digits. -/
def pyHex02 (n : Nat) : String := ⟨padHex 2 n⟩

/-- One printed table line, modelling the format string
    `"    \x7b 0x%02x, \x7b 0x%02x, 0x%02x \x7d \x7d,"` applied to an entry
    (line 29 of the source). -/
def entryLine (e : Entry) : String :=
  "    \x7b 0x" ++ pyHex02 e.1 ++ ", \x7b 0x" ++ pyHex02 e.2.1 ++
    ", 0x" ++ pyHex02 e.2.2 ++ " \x7d \x7d,"

/-- `output()`: the list of lines printed to standard output — the fixed
    header, one line per entry of `MAPPING` in order, the fixed footer. -/
def output (mapping : List Entry) : List String :=
  "static htoz_table_entry htoz_table[] = \x7b" ::
    mapping.map entryLine ++ ["\x7d;"]

/-- Two-digit lowercase hexadecimal rendering as the SPEC words it
    (zero-padded two-digit lowercase hex of a byte value): written from the
    spec, for comparison with the `%02x` model `pyHex02`. -/
def specHexDigit (n : Nat) : Char :=
  if n < 10 then Char.ofNat (0x30 + n) else Char.ofNat (0x57 + n)

/-- Spec-side rendering of a byte as exactly two lowercase hex digits. -/
def specHex2 (n : Nat) : String :=
  ⟨[specHexDigit (n / 16), specHexDigit (n % 16)]⟩

/-- One entry line in the exact shape the SPEC gives:
    `    \x7b 0xAA, \x7b 0xBB, 0xCC \x7d \x7d,` with `AA`, `BB`, `CC`
    zero-padded two-digit lowercase hex.  Written from the spec, for
    comparison with `entryLine`. -/
def specEntryLine (e : Entry) : String :=
  "    \x7b 0x" ++ specHex2 e.1 ++ ", \x7b 0x" ++ specHex2 e.2.1 ++
    ", 0x" ++ specHex2 e.2.2 ++ " \x7d \x7d,"

/-- Iterated calls of `gen_mapping` against the same module-level `MAPPING`
    state: `iterCalls n m` is the state after `n` further calls starting
    from state `m`, `none` if any call raises. -/
def iterCalls : Nat → List Entry → Option (List Entry)
  | 0, m => some m
  | n + 1, m =>
    match gen_mapping m with
    | none => none
    | some m2 => iterCalls n m2

/-- The loop of `gen_mapping` succeeds on the fixed tables and produces
    exactly the entries `mainEntries`. -/
theorem genLoop_fixed : genLoop ZENKAKU 0 HANKAKU = some mainEntries := by
  decide

/-- A `gen_mapping` call on any current `MAPPING` state returns and appends
    exactly the fixed block `mainEntries`. -/
theorem gen_mapping_appends (m : List Entry) :
    gen_mapping m = some (m ++ mainEntries) := by
  simp [gen_mapping, gen_mapping_on, genLoop_fixed]

/-- The fixed tables have 64 characters each, and the generated table has
    64 entries. -/
theorem tables_length :
    HANKAKU.length = 64 ∧ ZENKAKU.length = 64 ∧ mainEntries.length = 64 := by
  decide

/-- C1: on the fixed tables the program prints exactly the header line
    `static htoz_table_entry htoz_table[] = \x7b`, then one line per entry
    in the spec's exact shape `    \x7b 0xAA, \x7b 0xBB, 0xCC \x7d \x7d,`
    with the byte index and the two target bytes as zero-padded two-digit
    lowercase hex, then the footer line `\x7d;`; and for a table of any
    size the output begins with that header and ends with that footer. -/
theorem c1_output_format (m : List Entry) :
    (output m).head? = some "static htoz_table_entry htoz_table[] = \x7b" ∧
    (output m).getLast? = some "\x7d;" ∧
    gen_mapping [] = some mainEntries ∧
    output mainEntries =
      "static htoz_table_entry htoz_table[] = \x7b" ::
        mainEntries.map specEntryLine ++ ["\x7d;"] := by
  refine ⟨rfl, ?_, by simpa using gen_mapping_appends [], by decide⟩
  show ((("static htoz_table_entry htoz_table[] = \x7b" :: m.map entryLine) ++
      ["\x7d;"]).getLast? = some "\x7d;")
  rw [List.getLast?_concat]

/-- C1 witness: the format facts at the empty table. -/
theorem c1_output_format_witness :
    (output []).head? = some "static htoz_table_entry htoz_table[] = \x7b" ∧
    (output []).getLast? = some "\x7d;" ∧
    gen_mapping [] = some mainEntries ∧
    output mainEntries =
      "static htoz_table_entry htoz_table[] = \x7b" ::
        mainEntries.map specEntryLine ++ ["\x7d;"] :=
  c1_output_format []

/-- C2: the emitted entry for the half-width small-circle mark (U+FF61,
    paired with the full-width ideographic full stop U+3002) is
    `(0xa1, 0x81, 0x42)`; the first entry, for U+00A0 paired with the
    ideographic space U+3000, is `(0xa0, 0x81, 0x40)`; and the last entry,
    for the half-width katakana N U+FF9D paired with hiragana N U+3093, is
    `(0xdd, 0x82, 0xf1)`. -/
theorem c2_concrete_entries :
    HANKAKU.get? 4 = some '｡' ∧ ZENKAKU.get? 4 = some '。' ∧
    mainEntries.get? 4 = some (0xa1, 0x81, 0x42) ∧
    HANKAKU.get? 0 = some '\u00A0' ∧ ZENKAKU.get? 0 = some '　' ∧
    mainEntries.get? 0 = some (0xa0, 0x81, 0x40) ∧
    HANKAKU.get? 63 = some 'ﾝ' ∧ ZENKAKU.get? 63 = some 'ん' ∧
    mainEntries.get? 63 = some (0xdd, 0x82, 0xf1) ∧
    mainEntries.getLast? = some (0xdd, 0x82, 0xf1) := by
  decide

/-- C3: any entry the builder produces at loop position zero carries the
    fixed byte index 0xa0, assigned by the explicit `i == 0` branch; the
    first half-width character U+00A0 has no generic strict SHIFT_JIS
    encoding at all; and the first generated entry's byte index is 0xa0. -/
theorem c3_first_entry_fixed_byte (c z : Char) (e : Entry)
    (h : genEntry 0 c z = some e) :
    e.1 = 0xa0 ∧ sjisEncode (Char.ofNat 0xa0) = none ∧
      (mainEntries.get? 0).map Prod.fst = some 0xa0 := by
  refine ⟨?_, by decide, by decide⟩
  unfold genEntry at h
  cases h0 : (encodeSjisBackslash z)[0]? with
  | none => simp [h0] at h
  | some b0 =>
    cases h1 : (encodeSjisBackslash z)[1]? with
    | none => simp [h0, h1] at h
    | some b1 =>
      simp [h0, h1] at h
      subst h
      rfl

/-- C3 witness: the theorem applied to the program's actual first pair. -/
theorem c3_first_entry_fixed_byte_witness :
    ((0xa0, 0x81, 0x40) : Entry).1 = 0xa0 ∧
    sjisEncode (Char.ofNat 0xa0) = none ∧
    (mainEntries.get? 0).map Prod.fst = some 0xa0 :=
  c3_first_entry_fixed_byte (Char.ofNat 0xa0) (Char.ofNat 0x3000)
    (0xa0, 0x81, 0x40) (by decide)

/-- When the loop still has characters to process but the zenkaku sequence
    is exhausted before them, the out-of-range index access raises, so the
    loop returns `none`. -/
theorem genLoop_out_of_range (z : List Char) (hl : List Char) :
    ∀ i : Nat, i ≤ z.length → z.length < i + hl.length →
      genLoop z i hl = none := by
  induction hl with
  | nil =>
    intro i hle hlt
    simp only [List.length_nil, Nat.add_zero] at hlt
    exact absurd hlt (Nat.not_lt.mpr hle)
  | cons hk rest ih =>
    intro i hle hlt
    rcases Nat.lt_or_ge i z.length with hi | hi
    · have hz : z[i]? = some z[i] := List.getElem?_eq_getElem hi
      have hr : genLoop z (i + 1) rest = none := by
        apply ih
        · omega
        · simp only [List.length_cons] at hlt
          omega
      cases he : genEntry i hk z[i] with
      | none => simp [genLoop, hz, he]
      | some e => simp [genLoop, hz, he, hr]
    · have hz : z[i]? = none := List.getElem?_eq_none hi
      simp [genLoop, hz]

/-- C4 counterexample: a pair of source sequences of unequal lengths on
    which `gen_mapping` succeeds instead of failing — with the zenkaku side
    strictly longer, the loop over the hankaku side never touches the extra
    characters and silently produces a table. -/
theorem c4_counterexample :
    (['!'] : List Char).length ≠ (['。', '。'] : List Char).length ∧
    gen_mapping_on ['!'] ['。', '。'] [] = some [(0xa0, 0x81, 0x42)] := by
  decide

/-- C4 amended: the builder fails on diverging sequence lengths only in one
    direction — whenever `HANKAKU` is longer than `ZENKAKU` the indexing
    `ZENKAKU[i]` raises and `gen_mapping` returns no table; when `ZENKAKU`
    is the longer one it does not fail on that account. -/
theorem c4_hankaku_longer_fails (h z : List Char) (m : List Entry)
    (hlen : z.length < h.length) : gen_mapping_on h z m = none := by
  unfold gen_mapping_on
  rw [genLoop_out_of_range z h 0 (Nat.zero_le _) (by simpa using hlen)]
  rfl

/-- C4 witness: a two-character hankaku sequence against a one-character
    zenkaku sequence raises. -/
theorem c4_hankaku_longer_fails_witness :
    (['。'] : List Char).length < (['!', '!'] : List Char).length ∧
    gen_mapping_on ['!', '!'] ['。'] [] = none :=
  ⟨by decide, c4_hankaku_longer_fails ['!', '!'] ['。'] [] (by decide)⟩

/-- C5 counterexample: two invocations of `gen_mapping` in one process do
    not reproduce the output of one invocation — the second call appends to
    the module-level `MAPPING` a second copy of the entries, so the printed
    output differs from the output after a single call. -/
theorem c5_counterexample :
    gen_mapping [] = some mainEntries ∧
    gen_mapping mainEntries = some (mainEntries ++ mainEntries) ∧
    output (mainEntries ++ mainEntries) ≠ output mainEntries := by
  refine ⟨by simpa using gen_mapping_appends [], gen_mapping_appends mainEntries, ?_⟩
  intro hcon
  have hlen := congrArg List.length hcon
  simp only [output, List.length_cons, List.length_append, List.length_map]
    at hlen
  have h64 : mainEntries.length = 64 := tables_length.2.2
  omega

/-- C5 amended: the builder is deterministic per program run — every call
    appends the same fixed entry block `mainEntries`, so the single
    entry-point call, starting from the empty `MAPPING`, always yields the
    same table and hence byte-identical output across separate runs of the
    program; only repeated calls within one process accumulate. -/
theorem c5_deterministic_per_run (m : List Entry) :
    gen_mapping m = some (m ++ mainEntries) ∧
    gen_mapping [] = some mainEntries :=
  ⟨gen_mapping_appends m, by simpa using gen_mapping_appends []⟩

/-- C5 witness: the amended statement at the state left by a first call. -/
theorem c5_deterministic_per_run_witness :
    gen_mapping mainEntries = some (mainEntries ++ mainEntries) ∧
    gen_mapping [] = some mainEntries :=
  c5_deterministic_per_run mainEntries

/-- The backslash-escape of any character is at least two bytes long. -/
theorem backslashEscape_length (c : Char) : 2 ≤ (backslashEscape c).length := by
  unfold backslashEscape
  split
  · simp
  · split <;> simp

/-- C6: a full-width character with no SHIFT_JIS representation is encoded
    by the fixed backslash-replacement fallback rather than by failing: the
    fallback bytes are what the total encoder returns, they are long enough
    for both target-byte reads, and the loop body succeeds on such a
    character in the zenkaku position. -/
theorem c6_fallback_never_fails (c : Char) (h : sjisEncode c = none) :
    encodeSjisBackslash c = backslashEscape c ∧
    2 ≤ (encodeSjisBackslash c).length ∧
    (genEntry 0 c c).isSome := by
  have he : encodeSjisBackslash c = backslashEscape c := by
    unfold encodeSjisBackslash
    rw [h]
  have hlen2 : 2 ≤ (encodeSjisBackslash c).length := by
    rw [he]
    exact backslashEscape_length c
  refine ⟨he, hlen2, ?_⟩
  obtain ⟨b0, hb0⟩ : ∃ x, (encodeSjisBackslash c)[0]? = some x :=
    ⟨_, List.getElem?_eq_getElem (by omega)⟩
  obtain ⟨b1, hb1⟩ : ∃ x, (encodeSjisBackslash c)[1]? = some x :=
    ⟨_, List.getElem?_eq_getElem (by omega)⟩
  simp [genEntry, hb0, hb1]

/-- C6 witness: the unencodable no-break space U+00A0. -/
theorem c6_fallback_never_fails_witness :
    encodeSjisBackslash (Char.ofNat 0xa0) = backslashEscape (Char.ofNat 0xa0) ∧
    2 ≤ (encodeSjisBackslash (Char.ofNat 0xa0)).length ∧
    (genEntry 0 (Char.ofNat 0xa0) (Char.ofNat 0xa0)).isSome :=
  c6_fallback_never_fails (Char.ofNat 0xa0) (by decide)

/-- C7: every entry of the generated table has its byte index and both
    target bytes within 0 to 255. -/
theorem c7_entry_bounds (e : Entry) (h : e ∈ mainEntries) :
    e.1 ≤ 255 ∧ e.2.1 ≤ 255 ∧ e.2.2 ≤ 255 := by
  have hall : ∀ x ∈ mainEntries, x.1 ≤ 255 ∧ x.2.1 ≤ 255 ∧ x.2.2 ≤ 255 := by
    decide
  exact hall e h

/-- A successful run of the loop of `gen_mapping` yields one entry per
    half-width character, and the entry at each position is generated from
    the half-width and full-width characters at that same position. -/
theorem genLoop_get (z : List Char) (hl : List Char) :
    ∀ (i : Nat) (es : List Entry), genLoop z i hl = some es →
      es.length = hl.length ∧
      ∀ k, k < hl.length →
        (hl[k]?.bind fun hc => z[i + k]?.bind fun zc =>
          genEntry (i + k) hc zc) = es[k]? := by
  induction hl with
  | nil =>
    intro i es hgen
    simp only [genLoop] at hgen
    cases hgen
    exact ⟨rfl, fun k hk => absurd hk (by simp)⟩
  | cons hk rest ih =>
    intro i es hgen
    simp only [genLoop] at hgen
    split at hgen
    · simp at hgen
    · rename_i zk hz
      split at hgen
      · simp at hgen
      · rename_i e he
        split at hgen
        · simp at hgen
        · rename_i es2 hrest
          cases hgen
          obtain ⟨hlen, hcorr⟩ := ih (i + 1) es2 hrest
          refine ⟨by simp [hlen], ?_⟩
          intro k hklt
          cases k with
          | zero => simp [hz, he]
          | succ k2 =>
            have hk2 : k2 < rest.length := by
              simp only [List.length_cons] at hklt
              omega
            have := hcorr k2 hk2
            have harith : i + (k2 + 1) = i + 1 + k2 := by omega
            simpa [harith] using this

/-- C8: the generated table preserves the iteration order of the character
    pairs — it has one entry per pair, the entry at position `k` is the one
    generated from `HANKAKU[k]` and `ZENKAKU[k]`, and the printed line at
    position `k + 1` of the output (just after the header) is the formatted
    entry at position `k`. -/
theorem c8_order_preserved (k : Nat) (hklt : k < HANKAKU.length) :
    mainEntries.length = HANKAKU.length ∧
    (HANKAKU[k]?.bind fun hc => ZENKAKU[k]?.bind fun zc =>
      genEntry k hc zc) = mainEntries[k]? ∧
    (output mainEntries)[k + 1]? = mainEntries[k]?.map entryLine := by
  obtain ⟨hlen, hcorr⟩ := genLoop_get ZENKAKU HANKAKU 0 mainEntries genLoop_fixed
  refine ⟨hlen, ?_, ?_⟩
  · simpa using hcorr k hklt
  · have hkm : k < (mainEntries.map entryLine).length := by
      rw [List.length_map, hlen]
      exact hklt
    calc (output mainEntries)[k + 1]?
        = (mainEntries.map entryLine ++ ["\x7d;"])[k]? := by simp [output]
      _ = (mainEntries.map entryLine)[k]? := by
          rw [List.getElem?_append, if_pos hkm]
      _ = mainEntries[k]?.map entryLine := by rw [List.getElem?_map]

/-- C8 witness: the order facts at position zero. -/
theorem c8_order_preserved_witness :
    mainEntries.length = HANKAKU.length ∧
    (HANKAKU[0]?.bind fun hc => ZENKAKU[0]?.bind fun zc =>
      genEntry 0 hc zc) = mainEntries[0]? ∧
    (output mainEntries)[0 + 1]? = mainEntries[0]?.map entryLine :=
  c8_order_preserved 0 (by decide)

/-- C9: on the fixed tables `gen_mapping` completes without raising — the
    entry-point call returns a table; every half-width character after the
    first strictly encodes to exactly one SHIFT_JIS byte, and every
    full-width character (position zero included) encodes with the fallback
    handler to at least two bytes, so all index accesses are in bounds. -/
theorem c9_no_exception (k : Nat) (h0 : 0 < k) (h1 : k < HANKAKU.length) :
    (gen_mapping []).isSome ∧
    (HANKAKU[k]?.bind sjisEncode).map List.length = some 1 ∧
    2 ≤ (encodeSjisBackslash (ZENKAKU.getD k ' ')).length ∧
    2 ≤ (encodeSjisBackslash (ZENKAKU.getD 0 ' ')).length := by
  have hall : ∀ j, j < 64 → 0 < j →
      ((HANKAKU[j]?.bind sjisEncode).map List.length = some 1 ∧
        2 ≤ (encodeSjisBackslash (ZENKAKU.getD j ' ')).length) := by
    decide
  have h64 : HANKAKU.length = 64 := tables_length.1
  have hj := hall k (by omega) h0
  refine ⟨?_, hj.1, hj.2, by decide⟩
  rw [gen_mapping_appends []]
  rfl

/-- C9 witness: the encoding facts at position one. -/
theorem c9_no_exception_witness :
    (gen_mapping []).isSome ∧
    (HANKAKU[1]?.bind sjisEncode).map List.length = some 1 ∧
    2 ≤ (encodeSjisBackslash (ZENKAKU.getD 1 ' ')).length ∧
    2 ≤ (encodeSjisBackslash (ZENKAKU.getD 0 ' ')).length :=
  c9_no_exception 1 (by decide) (by decide)

/-- After `n` further calls of `gen_mapping` the module-level `MAPPING`
    state has grown by exactly 64 entries per call. -/
theorem iterCalls_spec (n : Nat) :
    ∀ m : List Entry, ∃ r, iterCalls n m = some r ∧
      r.length = m.length + 64 * n := by
  induction n with
  | zero =>
    intro m
    exact ⟨m, rfl, by omega⟩
  | succ n2 ih =>
    intro m
    obtain ⟨r, hr, hrl⟩ := ih (m ++ mainEntries)
    refine ⟨r, ?_, ?_⟩
    · simp only [iterCalls, gen_mapping_appends m]
      exact hr
    · rw [hrl]
      have h64 : mainEntries.length = 64 := tables_length.2.2
      simp only [List.length_append, h64]
      omega

/-- C10: each `gen_mapping` call appends exactly 64 entries — one per
    character of `HANKAKU` — to the global `MAPPING` without clearing it,
    so `n` calls leave `64 * n` entries; and after the single call made by
    the entry point, the output has 64 entry lines between header and
    footer. -/
theorem c10_accumulation (n : Nat) :
    (∃ r, iterCalls n [] = some r ∧ r.length = 64 * n) ∧
    gen_mapping [] = some mainEntries ∧
    mainEntries.length = 64 ∧ HANKAKU.length = 64 ∧
    (output mainEntries).length = 64 + 2 := by
  refine ⟨?_, by simpa using gen_mapping_appends [], tables_length.2.2,
    tables_length.1, ?_⟩
  · obtain ⟨r, hr, hrl⟩ := iterCalls_spec n []
    exact ⟨r, hr, by simpa using hrl⟩
  · simp only [output, List.length_cons, List.length_append, List.length_map,
      List.length_nil, tables_length.2.2]

/-- C10 witness: two calls leave 128 entries. -/
theorem c10_accumulation_witness :
    (∃ r, iterCalls 2 [] = some r ∧ r.length = 64 * 2) ∧
    gen_mapping [] = some mainEntries ∧
    mainEntries.length = 64 ∧ HANKAKU.length = 64 ∧
    (output mainEntries).length = 64 + 2 :=
  c10_accumulation 2

/-- C7 witness: the bounds at the first generated entry. -/
theorem c7_entry_bounds_witness :
    ((0xa0, 0x81, 0x40) : Entry).1 ≤ 255 ∧
    ((0xa0, 0x81, 0x40) : Entry).2.1 ≤ 255 ∧
    ((0xa0, 0x81, 0x40) : Entry).2.2 ≤ 255 :=
  c7_entry_bounds (0xa0, 0x81, 0x40) (by decide)

end Htoz
